import Mathlib

/-!
Verification development for the disk-based quorum daemon
(src/cman/qdisk/main.c).  The definitions below are a shallow embedding
of the daemon's main-loop code: the per-peer record bookkeeping
(`read_node_blocks`), the peer state machine (`check_transitions`), the
election primitives (`master_exists`, `do_vote`, `check_votes`) and one
iteration of `quorum_loop`.  External collaborators (the disk driver,
the cluster membership library, the heuristic scorer and the clock) are
modelled as oracle inputs supplied in a `CycleEnv`; machine integers are
modelled as `Nat`/`Int` (no field in play can overflow in the scenarios
the theorems quantify over, and every comparison in the source is on
values far below the wrap point).  Byte swapping (`swab_status_block_t`)
is the identity in this value-level model.
-/

/-- Node states.  The numeric values and their order are modelled from the
spec, since the header that declares `disk_node_state_t` is not part of the
sources here: NONE means not participating, EVICT sits between NONE and the
runnable states so that `state_run` (`state >= S_INIT` in the source) holds
exactly for INIT, RUN and MASTER, and so that the source's
`ps_state <= S_EVICT` means "NONE or EVICT". -/
inductive disk_node_state_t where
  | S_NONE
  | S_EVICT
  | S_INIT
  | S_RUN
  | S_MASTER
deriving DecidableEq, Inhabited

/-- Numeric value of a state, for the source's integer comparisons. -/
def disk_node_state_t.toNat : disk_node_state_t → Nat
  | .S_NONE => 0
  | .S_EVICT => 1
  | .S_INIT => 2
  | .S_RUN => 5
  | .S_MASTER => 6

open disk_node_state_t in
/-- `state_run` from main.c: a state counts as running iff it is at least
`S_INIT` (the source returns the state itself as a truthy value). -/
def state_run (s : disk_node_state_t) : Bool :=
  decide (S_INIT.toNat ≤ s.toNat)

/-- Election message codes (values only compared for equality). -/
def M_NONE : Nat := 0

/-- Bid for master. -/
def M_BID : Nat := 1

/-- Ack a bid (arg = candidate id). -/
def M_ACK : Nat := 2

/-- Nack a bid (arg = candidate id). -/
def M_NACK : Nat := 3

/-- Modelled from the spec, section 4.2: the bitmap (bitmap.c is not among
the sources).  A membership mask is the set of set bit indices; bit `i`
stands for node id `i + 1`. -/
abbrev memb_mask_t := Finset Nat

/-- `set_bit` from the bitmap component. -/
def set_bit (m : memb_mask_t) (i : Nat) : memb_mask_t := insert i m

/-- `clear_bit` from the bitmap component. -/
def clear_bit (m : memb_mask_t) (i : Nat) : memb_mask_t := m.erase i

/-- `is_bit_set` from the bitmap component. -/
def is_bit_set (m : memb_mask_t) (i : Nat) : Bool := decide (i ∈ m)

/-- One-slot election message (`disk_msg_t`). -/
structure disk_msg_t where
  m_msg : Nat
  m_arg : Nat
  m_seq : Nat
deriving DecidableEq, Inhabited

/-- On-disk status block (`status_block_t`), value level.  Checksums,
magic and padding are part of the codec, not of the loop logic. -/
structure status_block_t where
  ps_nodeid : Nat
  ps_state : disk_node_state_t
  ps_updatenode : Nat
  ps_timestamp : Nat
  ps_incarnation : Nat
  ps_msg : Nat
  ps_arg : Nat
  ps_seq : Nat
  ps_master_mask : memb_mask_t
deriving DecidableEq, Inhabited

/-- In-memory per-peer record (`node_info_t`). -/
structure node_info_t where
  ni_status : status_block_t
  ni_incarnation : Nat
  ni_evil_incarnation : Nat
  ni_last_seen : Nat
  ni_misses : Nat
  ni_seen : Nat
  ni_msg : disk_msg_t
  ni_last_msg : disk_msg_t
  ni_state : disk_node_state_t
deriving DecidableEq, Inhabited

/-- Daemon context (`qd_ctx`): the fields the quorum loop reads or
writes.  The `RF_*` flag bits of `qc_flags` are individual Booleans. -/
structure qd_ctx where
  qc_my_id : Nat
  qc_status : disk_node_state_t
  qc_master : Nat
  qc_interval : Nat
  qc_tko : Nat
  qc_tko_up : Nat
  qc_upgrade_wait : Nat
  qc_master_wait : Nat
  qc_scoremin : Nat
  rf_reboot : Bool
  rf_paranoid : Bool
  rf_debug : Bool
  rf_allow_kill : Bool
  rf_uptime : Bool
deriving DecidableEq, Inhabited

/-- Outcome of inspecting our own block (`check_self`): continue, reboot
the machine, or stop the process (the unhandled-state branch). -/
inductive SelfAction where
  | ok
  | reboot
  | sigstop
deriving DecidableEq, Inhabited

open disk_node_state_t in
/-- `check_self` from main.c: someone else wrote our block.  If the state
they wrote is EVICT we reboot at once; no configuration flag is consulted. -/
def check_self (ctx : qd_ctx) (sb : status_block_t) : SelfAction :=
  if sb.ps_updatenode = 0 ∨ sb.ps_updatenode = ctx.qc_my_id then SelfAction.ok
  else if sb.ps_state = S_EVICT then SelfAction.reboot
  else SelfAction.sigstop

/-- One slot of `read_node_blocks`: `none` is a failed `qdisk_read` (the
source logs and continues, leaving the record untouched); on success the
block is copied into the record, our own block goes through `check_self`,
a foreign block updates the message slots and then the liveness counters
when its state is runnable. -/
def read_node_block (ctx : qd_ctx) (r : Option status_block_t) (ni : node_info_t) :
    node_info_t × SelfAction :=
  match r with
  | none => (ni, SelfAction.ok)
  | some sb =>
    let ni1 := { ni with ni_status := sb }
    if sb.ps_nodeid = ctx.qc_my_id then (ni1, check_self ctx sb)
    else
      let ni2 := { ni1 with ni_last_msg := ni1.ni_msg,
                            ni_msg := ⟨sb.ps_msg, sb.ps_arg, sb.ps_seq⟩ }
      if state_run sb.ps_state = false then (ni2, SelfAction.ok)
      else if sb.ps_timestamp = ni2.ni_last_seen then
        ({ ni2 with ni_misses := ni2.ni_misses + 1 }, SelfAction.ok)
      else
        ({ ni2 with ni_misses := 0, ni_seen := ni2.ni_seen + 1,
                    ni_last_seen := sb.ps_timestamp }, SelfAction.ok)

/-- `read_node_blocks` over all slots.  The second component records that
`check_self` demanded a reboot, which abandons the rest of the pass (the
source's `reboot` call does not return). -/
def read_node_blocks (ctx : qd_ctx) :
    List (Option status_block_t) → List node_info_t → List node_info_t × Bool
  | r :: rs, ni :: nis =>
    let p := read_node_block ctx r ni
    if p.2 = SelfAction.reboot then (p.1 :: nis, true)
    else
      let q := read_node_blocks ctx rs nis
      (p.1 :: q.1, q.2)
  | _, nis => (nis, false)

open disk_node_state_t in
/-- Guard of case 1 of `check_transitions`: the peer we considered up has
been evicted or cleanly shut down, or its incarnation changed. -/
abbrev down_restart_cond (ni : node_info_t) : Prop :=
  (S_EVICT.toNat ≤ ni.ni_state.toNat ∧ ni.ni_status.ps_state.toNat ≤ S_EVICT.toNat)
  ∨ (ni.ni_incarnation ≠ 0 ∧ ni.ni_incarnation ≠ ni.ni_status.ps_incarnation)

/-- Result of one slot of `check_transitions`: the updated record, the
updated outgoing mask (when one was passed), and the node ids into whose
slots an `S_EVICT` status block was written. -/
structure trans_out where
  ni : node_info_t
  mask : Option memb_mask_t
  writes : List Nat
deriving DecidableEq

/-- Lift `clear_bit` over an optional mask. -/
def clear_bit_opt (m : Option memb_mask_t) (i : Nat) : Option memb_mask_t :=
  m.map (fun v => clear_bit v i)

/-- Lift `set_bit` over an optional mask. -/
def set_bit_opt (m : Option memb_mask_t) (i : Nat) : Option memb_mask_t :=
  m.map (fun v => set_bit v i)

open disk_node_state_t in
/-- One slot of `check_transitions`: the six cases of main.c in source
order; the first case whose guard holds fires and the rest are skipped. -/
def check_transition_node (ctx : qd_ctx) (ni : node_info_t) (mask : Option memb_mask_t) :
    trans_out :=
  if down_restart_cond ni then
    let niA := if ni.ni_status.ps_state = S_EVICT then ni
               else { ni with ni_evil_incarnation := 0 }
    { ni := { niA with ni_incarnation := 0, ni_seen := 0, ni_misses := 0,
                       ni_state := S_NONE },
      mask := clear_bit_opt mask (ni.ni_status.ps_nodeid - 1), writes := [] }
  else if ctx.qc_tko < ni.ni_misses ∧ state_run ni.ni_status.ps_state = true then
    let w := if ctx.qc_status = S_MASTER then [ni.ni_status.ps_nodeid] else []
    let niA := if S_RUN.toNat ≤ ni.ni_status.ps_state.toNat ∧ ni.ni_seen ≠ 0
               then { ni with ni_seen := 0 } else ni
    { ni := { niA with ni_state := S_EVICT,
                       ni_status := { niA.ni_status with ps_state := S_EVICT },
                       ni_evil_incarnation := niA.ni_status.ps_incarnation },
      mask := clear_bit_opt mask (ni.ni_status.ps_nodeid - 1), writes := w }
  else if ni.ni_evil_incarnation ≠ 0 ∧
          ni.ni_evil_incarnation = ni.ni_status.ps_incarnation then
    { ni := { ni with ni_status := { ni.ni_status with ps_state := S_EVICT } },
      mask := mask, writes := [ni.ni_status.ps_nodeid] }
  else if ctx.qc_tko_up < ni.ni_seen ∧ state_run ni.ni_state = false then
    { ni := { ni with ni_state := S_RUN,
                      ni_incarnation := ni.ni_status.ps_incarnation },
      mask := set_bit_opt mask (ni.ni_status.ps_nodeid - 1), writes := [] }
  else if ni.ni_state = S_RUN ∧ ni.ni_status.ps_state = S_MASTER then
    { ni := { ni with ni_state := S_MASTER },
      mask := set_bit_opt mask (ni.ni_status.ps_nodeid - 1), writes := [] }
  else if state_run ni.ni_state = true then
    { ni := { ni with ni_state := ni.ni_status.ps_state },
      mask := set_bit_opt mask (ni.ni_status.ps_nodeid - 1), writes := [] }
  else { ni := ni, mask := mask, writes := [] }

/-- Fold of `check_transition_node` over the record array.  A supplied
mask is zeroed first, as the source's `memset` does. -/
def check_transitions (ctx : qd_ctx) (nis : List node_info_t) (mask : Option memb_mask_t) :
    List node_info_t × Option memb_mask_t × List Nat :=
  go nis (mask.map (fun _ => (∅ : memb_mask_t)))
where
  go : List node_info_t → Option memb_mask_t → List node_info_t × Option memb_mask_t × List Nat
    | [], m => ([], m, [])
    | ni :: rest, m =>
      let t := check_transition_node ctx ni m
      let r := go rest t.mask
      (t.ni :: r.1, r.2.1, t.writes ++ r.2.2)

open disk_node_state_t in
/-- Accumulating scan of `master_exists`: `(ret, low_id, masters)` built
over the record array in source order. -/
def me_scan (ctx : qd_ctx) :
    List node_info_t → Nat → Nat → Nat → Nat × Nat × Nat
  | [], ret, low, masters => (ret, low, masters)
  | ni :: rest, ret, low, masters =>
    if S_RUN.toNat ≤ ni.ni_state.toNat ∧ ni.ni_status.ps_state = S_MASTER ∧
       ni.ni_status.ps_nodeid ≠ ctx.qc_my_id then
      me_scan ctx rest (if ret = 0 then ni.ni_status.ps_nodeid else ret) low (masters + 1)
    else if ni.ni_status.ps_nodeid = ctx.qc_my_id ∧ ni.ni_status.ps_state = S_MASTER then
      me_scan ctx rest (if ret = 0 then ctx.qc_my_id else ret) low (masters + 1)
    else if ni.ni_state.toNat < S_RUN.toNat ∧ ni.ni_status.ps_state = S_MASTER then
      me_scan ctx rest ret low masters
    else if ni.ni_state.toNat < S_RUN.toNat then
      me_scan ctx rest ret low masters
    else if ni.ni_status.ps_nodeid < low then
      me_scan ctx rest ret ni.ni_status.ps_nodeid masters
    else
      me_scan ctx rest ret low masters

/-- `master_exists` from main.c: the detected master id (0 when none),
the lowest tracked-alive node id (defaulting to ours) and the number of
blocks claiming mastership. -/
def master_exists (ctx : qd_ctx) (nis : List node_info_t) : Nat × Nat × Nat :=
  me_scan ctx nis 0 ctx.qc_my_id 0

open disk_node_state_t in
/-- `do_vote` from main.c: ack the first RUN peer with a pending bid and
an id lower than ours; otherwise leave the message alone. -/
def do_vote (ctx : qd_ctx) : List node_info_t → disk_msg_t → disk_msg_t
  | [], msg => msg
  | ni :: rest, msg =>
    if ni.ni_state ≠ S_RUN then do_vote ctx rest msg
    else if ni.ni_status.ps_msg = M_BID ∧ ni.ni_status.ps_nodeid < ctx.qc_my_id then
      ⟨M_ACK, ni.ni_status.ps_nodeid, ni.ni_status.ps_seq⟩
    else do_vote ctx rest msg

/-- Accumulating scan of `check_votes`:
`(running, acks, nacks, low_id, msg)` over the record array. -/
def cv_scan (my : Nat) :
    List node_info_t → Nat → Nat → Nat → Nat → disk_msg_t →
    Nat × Nat × Nat × Nat × disk_msg_t
  | [], running, acks, nacks, low, msg => (running, acks, nacks, low, msg)
  | ni :: rest, running, acks, nacks, low, msg =>
    if state_run ni.ni_state = false then cv_scan my rest running acks nacks low msg
    else
      let acks' := if ni.ni_status.ps_msg = M_ACK ∧ ni.ni_status.ps_arg = my
                   then acks + 1 else acks
      let nacks' := if ni.ni_status.ps_msg = M_NACK ∧ ni.ni_status.ps_arg = my
                    then nacks + 1 else nacks
      if ni.ni_status.ps_msg = M_BID ∧ ni.ni_status.ps_nodeid < low then
        cv_scan my rest (running + 1) acks' nacks' ni.ni_status.ps_nodeid
          ⟨M_ACK, ni.ni_status.ps_nodeid, ni.ni_status.ps_seq⟩
      else
        cv_scan my rest (running + 1) acks' nacks' low msg

/-- `check_votes` from main.c.  Outcome 3: every tracked-running peer has
acked us; 2: someone nacked us; 1: a lower id is bidding (the message now
acks it); 0: keep waiting. -/
def check_votes (ctx : qd_ctx) (nis : List node_info_t) (msg : disk_msg_t) :
    Nat × disk_msg_t :=
  let s := cv_scan ctx.qc_my_id nis 0 0 0 ctx.qc_my_id msg
  (if s.2.1 = s.1 then 3
   else if s.2.2.1 ≠ 0 then 2
   else if s.2.2.2.1 ≠ ctx.qc_my_id then 1
   else 0,
   s.2.2.2.2)

/-- `struct timeval`. -/
structure timeval where
  tv_sec : Int
  tv_usec : Int
deriving DecidableEq, Inhabited

/-- `_cmp_tv` from main.c: -1 when left is later, 1 when left is earlier,
0 on equality. -/
def _cmp_tv (l r : timeval) : Int :=
  if r.tv_sec < l.tv_sec then -1
  else if l.tv_sec < r.tv_sec then 1
  else if r.tv_usec < l.tv_usec then -1
  else if l.tv_usec < r.tv_usec then 1
  else 0

/-- Modelled from the spec, section 4.6: `_diff_tv` is declared in main.c
but lives in bitmap.c, which is not among the sources; per the spec it
computes the elapsed time `end - start`, with the usual microsecond
borrow. -/
def _diff_tv (s e : timeval) : timeval :=
  if e.tv_usec < s.tv_usec then
    ⟨e.tv_sec - s.tv_sec - 1, e.tv_usec + 1000000 - s.tv_usec⟩
  else
    ⟨e.tv_sec - s.tv_sec, e.tv_usec - s.tv_usec⟩

/-- Microsecond value of a timeval. -/
def toUsec (tv : timeval) : Int := tv.tv_sec * 1000000 + tv.tv_usec

/-- A normalised timeval: microseconds within one second. -/
abbrev tv_wf (tv : timeval) : Prop := 0 ≤ tv.tv_usec ∧ tv.tv_usec < 1000000

/-- End-of-cycle sleep computation of `quorum_loop`: when the cycle was
shorter than the interval, sleep for the remainder; otherwise the source
copies the whole interval into `sleeptime`. -/
def compute_sleeptime (diff intv : timeval) : timeval :=
  if _cmp_tv diff intv = 1 then _diff_tv diff intv else intv

/-- What the spec's words prescribe for the sleep: `max(0, interval - Δ)`.
This definition follows the spec, for comparison with the source's
`compute_sleeptime`. -/
def sleep_per_spec (diff intv : timeval) : timeval :=
  if _cmp_tv diff intv = 1 then _diff_tv diff intv else ⟨0, 0⟩

/-- Oracle inputs for one iteration of `quorum_loop`: the disk reads
(`none` = failed read), the sampled heuristic score pair, the cluster
membership answers, and the two clock samples framing the cycle. -/
structure CycleEnv where
  reads : List (Option status_block_t)
  score : Nat
  score_max : Nat
  cman_ok : Bool
  cman_get_nodes_ok : Bool
  cman_nodes : List (Nat × Bool)
  oldtime : timeval
  newtime : timeval
deriving DecidableEq, Inhabited

/-- Mutable state of `quorum_loop` carried across iterations: the context,
the record array, the outgoing message, the bid and upgrade counters and
the two masks (locals of `quorum_loop` in the source). -/
structure LoopState where
  ctx : qd_ctx
  ni : List node_info_t
  msg : disk_msg_t
  bid_pending : Nat
  upgrade : Nat
  mask : memb_mask_t
  master_mask : memb_mask_t
deriving DecidableEq, Inhabited

/-- Loop state after reads, transitions, score gate and master detection,
just before conflict resolution and the decision chain. -/
structure MidState where
  mid_ni : List node_info_t
  mid_mask : memb_mask_t
  mid_master_mask : memb_mask_t
  mid_writes : List Nat
  mid_ctx : qd_ctx
  mid_msg : disk_msg_t
  mid_bid : Nat
  mid_upgrade : Nat
  mid_low : Nat
  mid_count : Nat
  mid_score_req : Nat
deriving DecidableEq, Inhabited

/-- Reasons the source reboots from inside the loop. -/
inductive RebootReason where
  | selfEvict
  | scoreGate
  | paranoid
deriving DecidableEq, Inhabited

/-- First half of a cycle: either a reboot, or a `MidState`. -/
inductive MidResult where
  | reboot (r : RebootReason)
  | mid (m : MidState)
deriving DecidableEq, Inhabited

/-- The status block contents this node writes at the end of a cycle. -/
structure WrittenStatus where
  ws_state : disk_node_state_t
  ws_msg : disk_msg_t
  ws_mask : memb_mask_t
  ws_master_mask : memb_mask_t
deriving DecidableEq, Inhabited

/-- Everything a completed (non-reboot, non-halt) cycle leaves behind. -/
structure CycleEnd where
  end_ctx : qd_ctx
  end_ni : List node_info_t
  end_msg : disk_msg_t
  end_bid : Nat
  end_upgrade : Nat
  end_mask : memb_mask_t
  end_master_mask : memb_mask_t
  end_writes : List Nat
  written : WrittenStatus
  sleeptime : timeval
deriving DecidableEq, Inhabited

/-- Result of one iteration of `quorum_loop`: reboot, halt (the
`return -1` paths when the membership service is gone), or a completed
cycle. -/
inductive CycleResult where
  | reboot (r : RebootReason)
  | halt
  | finished (d : CycleEnd)
deriving DecidableEq, Inhabited

/-- `score_req` computation of `quorum_loop` (and `quorum_init`): the
configured minimum when positive, else a strict majority of the weights. -/
def score_required (scoremin score_max : Nat) : Nat :=
  if scoremin = 0 then score_max / 2 + 1 else scoremin

/-- Package the state after the score gate and run `master_exists`,
storing the detected master in the context. -/
def post_master (ctx : qd_ctx) (ni : List node_info_t) (mask mm : memb_mask_t)
    (writes : List Nat) (msg : disk_msg_t) (bid upg sreq : Nat) : MidState :=
  let r := master_exists ctx ni
  { mid_ni := ni, mid_mask := mask, mid_master_mask := mm, mid_writes := writes,
    mid_ctx := { ctx with qc_master := r.1 }, mid_msg := msg, mid_bid := bid,
    mid_upgrade := upg, mid_low := r.2.1, mid_count := r.2.2, mid_score_req := sreq }

open disk_node_state_t in
/-- First half of one `quorum_loop` iteration: read all blocks (a foreign
EVICT in our own block reboots), run the transitions, decrement the
upgrade counter, apply the score gate (downgrade to NONE and clear our
mask bit when the score is short, rebooting if so configured; promote
NONE to RUN and set our bit otherwise), then detect the master. -/
def cycle_pre (env : CycleEnv) (st : LoopState) : MidResult :=
  let rr := read_node_blocks st.ctx env.reads st.ni
  if rr.2 = true then MidResult.reboot RebootReason.selfEvict
  else
    let tr := check_transitions st.ctx rr.1 (some st.mask)
    let mask2 := tr.2.1.getD ∅
    let upg := if 0 < st.upgrade then st.upgrade - 1 else st.upgrade
    let sreq := score_required st.ctx.qc_scoremin env.score_max
    if env.score < sreq then
      let mask3 := clear_bit mask2 (st.ctx.qc_my_id - 1)
      if S_NONE.toNat < st.ctx.qc_status.toNat then
        if st.ctx.rf_reboot then MidResult.reboot RebootReason.scoreGate
        else MidResult.mid (post_master { st.ctx with qc_status := S_NONE }
          tr.1 mask3 st.master_mask tr.2.2
          { st.msg with m_msg := M_NONE, m_seq := st.msg.m_seq + 1 } 0 upg sreq)
      else MidResult.mid (post_master st.ctx tr.1 mask3 st.master_mask tr.2.2
        st.msg st.bid_pending upg sreq)
    else
      let mask3 := set_bit mask2 (st.ctx.qc_my_id - 1)
      if st.ctx.qc_status = S_NONE then
        MidResult.mid (post_master { st.ctx with qc_status := S_RUN }
          tr.1 mask3 st.master_mask tr.2.2
          { st.msg with m_msg := M_NONE, m_seq := st.msg.m_seq + 1 }
          0 st.ctx.qc_upgrade_wait sreq)
      else MidResult.mid (post_master st.ctx tr.1 mask3 st.master_mask tr.2.2
        st.msg st.bid_pending upg sreq)

open disk_node_state_t in
/-- Master-conflict resolution of `quorum_loop`: somebody else claims
mastership while we do — abdicate to RUN, restart the upgrade wait,
drop the bid.  No reboot on this path. -/
def resolve_conflict (m : MidState) : MidState :=
  if 1 ≤ m.mid_count ∧ m.mid_ctx.qc_status = S_MASTER ∧
     m.mid_ctx.qc_master ≠ m.mid_ctx.qc_my_id then
    { m with mid_ctx := { m.mid_ctx with qc_status := S_RUN },
             mid_upgrade := m.mid_ctx.qc_upgrade_wait,
             mid_bid := 0,
             mid_msg := { m.mid_msg with m_msg := M_NONE, m_seq := m.mid_msg.m_seq + 1 } }
  else m

/-- `check_cman` from main.c: rebuild the master mask as our mask
intersected with the membership list; peers the membership service does
not list as members are dropped.  A failed node query leaves the mask
untouched. -/
def check_cman (env : CycleEnv) (mask mm : memb_mask_t) : memb_mask_t :=
  if env.cman_get_nodes_ok = false then mm
  else env.cman_nodes.foldl
    (fun acc n => if is_bit_set mask (n.1 - 1) = true ∧ n.2 = true
                  then set_bit acc (n.1 - 1) else clear_bit acc (n.1 - 1))
    (∅ : memb_mask_t)

/-- The default record used for the source's direct array access
`ni[qc_master - 1]`. -/
def node_info_default : node_info_t := default

open disk_node_state_t in
/-- Decision chain of `quorum_loop` (the if/else ladder after conflict
resolution): bid, vote, evaluate votes with its deliberate fallthroughs,
or poll the membership service; `none` is the `return -1` path when the
membership service is dead. -/
def cycle_decide (env : CycleEnv) (m : MidState) : Option MidState :=
  let c := m.mid_ctx
  if c.qc_master = 0 ∧ m.mid_low = c.qc_my_id ∧ c.qc_status = S_RUN ∧
     m.mid_bid = 0 ∧ m.mid_upgrade = 0 then
    some { m with mid_msg := { m.mid_msg with m_msg := M_BID, m_seq := m.mid_msg.m_seq + 1 },
                  mid_bid := 1 }
  else if c.qc_master = 0 ∧ m.mid_bid = 0 then
    some { m with mid_msg := do_vote c m.mid_ni m.mid_msg }
  else if c.qc_master = 0 ∧ m.mid_bid ≠ 0 then
    let bid := m.mid_bid + 1
    let v := check_votes c m.mid_ni m.mid_msg
    if v.1 = 3 then
      if bid < c.qc_master_wait then some { m with mid_bid := bid, mid_msg := v.2 }
      else some { m with mid_ctx := { c with qc_status := S_MASTER },
                         mid_msg := { v.2 with m_msg := M_NONE }, mid_bid := 0 }
    else if v.1 = 2 then
      some { m with mid_msg := { v.2 with m_msg := M_NONE }, mid_bid := 0 }
    else if v.1 = 1 then
      some { m with mid_msg := v.2, mid_bid := 0 }
    else
      some { m with mid_msg := v.2, mid_bid := bid }
  else if c.qc_status = S_MASTER ∧ c.qc_master ≠ c.qc_my_id then
    some m
  else if c.qc_status = S_MASTER ∧ c.qc_master = c.qc_my_id then
    if env.cman_ok = false then none
    else some { m with mid_master_mask := check_cman env m.mid_mask m.mid_master_mask }
  else if c.qc_status = S_RUN ∧ c.qc_master ≠ 0 ∧ c.qc_master ≠ c.qc_my_id then
    if is_bit_set ((m.mid_ni.getD (c.qc_master - 1) node_info_default).ni_status.ps_master_mask)
         (c.qc_my_id - 1) = true then
      if env.cman_ok = false then none else some m
    else some m
  else some m

/-- End of one `quorum_loop` iteration: write our own block, check the
paranoid cycle-overrun reboot, and compute the sleep time. -/
def cycle_finish (env : CycleEnv) (m : MidState) : CycleResult :=
  let written : WrittenStatus :=
    ⟨m.mid_ctx.qc_status, m.mid_msg, m.mid_mask, m.mid_master_mask⟩
  let diff := _diff_tv env.oldtime env.newtime
  let maxtime : timeval := ⟨(m.mid_ctx.qc_interval * m.mid_ctx.qc_tko : Nat), 0⟩
  if _cmp_tv maxtime diff = 1 ∧ m.mid_ctx.rf_paranoid = true ∧
     m.mid_ctx.rf_debug = false then
    CycleResult.reboot RebootReason.paranoid
  else
    CycleResult.finished
      { end_ctx := m.mid_ctx, end_ni := m.mid_ni, end_msg := m.mid_msg,
        end_bid := m.mid_bid, end_upgrade := m.mid_upgrade,
        end_mask := m.mid_mask, end_master_mask := m.mid_master_mask,
        end_writes := m.mid_writes, written := written,
        sleeptime := compute_sleeptime diff ⟨(m.mid_ctx.qc_interval : Nat), 0⟩ }

/-- Decision chain plus cycle end, as one step. -/
def quorum_cycle_rest (env : CycleEnv) (m : MidState) : CycleResult :=
  match cycle_decide env m with
  | none => CycleResult.halt
  | some m2 => cycle_finish env m2

/-- One full iteration of `quorum_loop`: reads and transitions, score
gate, master detection, conflict resolution, decision chain, own-block
write and timing. -/
def quorum_cycle (env : CycleEnv) (st : LoopState) : CycleResult :=
  match cycle_pre env st with
  | MidResult.reboot r => CycleResult.reboot r
  | MidResult.mid m => quorum_cycle_rest env (resolve_conflict m)

/-- The state this node writes in a cycle, when the cycle writes one. -/
def writtenStateOf : CycleResult → Option disk_node_state_t
  | CycleResult.finished d => some d.written.ws_state
  | _ => none

/-- Our own mask bit in the written block, when the cycle writes one. -/
def writtenOwnBit (my : Nat) : CycleResult → Option Bool
  | CycleResult.finished d => some (is_bit_set d.written.ws_mask (my - 1))
  | _ => none

/-- The sleep duration of a cycle, when the cycle completes. -/
def cycleSleep : CycleResult → Option timeval
  | CycleResult.finished d => some d.sleeptime
  | _ => none

/-- One cycle of the loop as seen by a single peer record: the read
(possibly failed) followed by its `check_transitions` slot. -/
def peer_cycle (ctx : qd_ctx) (r : Option status_block_t) (ni : node_info_t) :
    node_info_t :=
  (check_transition_node ctx (read_node_block ctx r ni).1 none).ni

/-- Iterated `peer_cycle` over a sequence of observed reads. -/
def peer_cycles (ctx : qd_ctx) : List (Option status_block_t) → node_info_t → node_info_t
  | [], ni => ni
  | r :: rs, ni => peer_cycles ctx rs (peer_cycle ctx r ni)

/-- All blocks of a read sequence carry the given incarnation. -/
def reads_have_incarnation (x : Nat) (l : List (Option status_block_t)) : Bool :=
  l.all (fun r => match r with
    | some sb => decide (sb.ps_incarnation = x)
    | none => true)

open disk_node_state_t in
/-- No block of a read sequence reports a clean shutdown (state NONE). -/
def reads_not_none_state (l : List (Option status_block_t)) : Bool :=
  l.all (fun r => match r with
    | some sb => decide (sb.ps_state ≠ S_NONE)
    | none => true)

/-! ## Helper lemmas -/

/-- `read_node_block` never touches the tracked state, the incarnations or
the seen timestamp bookkeeping beyond what the block dictates; in
particular the eviction bookkeeping fields are read-only here. -/
theorem read_node_block_keeps_tracking (ctx : qd_ctx) (r : Option status_block_t)
    (ni : node_info_t) :
    (read_node_block ctx r ni).1.ni_evil_incarnation = ni.ni_evil_incarnation ∧
    (read_node_block ctx r ni).1.ni_incarnation = ni.ni_incarnation ∧
    (read_node_block ctx r ni).1.ni_state = ni.ni_state ∧
    ((read_node_block ctx r ni).1.ni_status = ni.ni_status ∨
      ∃ sb, r = some sb ∧ (read_node_block ctx r ni).1.ni_status = sb) := by
  cases r with
  | none => simp [read_node_block]
  | some sb =>
    simp only [read_node_block]
    split
    · exact ⟨rfl, rfl, rfl, Or.inr ⟨sb, rfl, rfl⟩⟩
    · split
      · exact ⟨rfl, rfl, rfl, Or.inr ⟨sb, rfl, rfl⟩⟩
      · split
        · exact ⟨rfl, rfl, rfl, Or.inr ⟨sb, rfl, rfl⟩⟩
        · exact ⟨rfl, rfl, rfl, Or.inr ⟨sb, rfl, rfl⟩⟩

/-! ## C2 -/

open disk_node_state_t in
/-- C2: whenever the daemon reads its own status block (`ps_nodeid` is our
id) and finds `ps_updatenode` set to a node id other than our own with
state `S_EVICT`, `check_self` requests an immediate reboot, and the read
pass propagates it.  The context — in particular every configuration
flag — is arbitrary. -/
theorem c2_self_evict_always_reboots (ctx : qd_ctx) (sb : status_block_t)
    (ni : node_info_t)
    (h1 : sb.ps_nodeid = ctx.qc_my_id) (h2 : sb.ps_updatenode ≠ 0)
    (h3 : sb.ps_updatenode ≠ ctx.qc_my_id) (h4 : sb.ps_state = S_EVICT) :
    check_self ctx sb = SelfAction.reboot ∧
    (read_node_block ctx (some sb) ni).2 = SelfAction.reboot := by
  have hc : check_self ctx sb = SelfAction.reboot := by
    unfold check_self
    rw [if_neg (by tauto), if_pos h4]
  refine ⟨hc, ?_⟩
  simp [read_node_block, h1, hc]

def c2ctx : qd_ctx :=
  ⟨1, disk_node_state_t.S_RUN, 0, 1, 10, 2, 2, 5, 0, false, true, true, false, false⟩

def c2sb : status_block_t := ⟨1, disk_node_state_t.S_EVICT, 3, 42, 7, 0, 0, 0, ∅⟩

def c2ni : node_info_t := default

/-- Witness for C2: a concrete own block evicted by node 3, with the
reboot flag off and debug on. -/
theorem c2_self_evict_always_reboots_witness :
    check_self c2ctx c2sb = SelfAction.reboot ∧
    (read_node_block c2ctx (some c2sb) c2ni).2 = SelfAction.reboot :=
  c2_self_evict_always_reboots c2ctx c2sb c2ni (by decide) (by decide) (by decide)
    (by decide)

/-! ## C4 -/

/-- C4 (amended): a failed status-block read leaves both `last_seen` and
`misses` untouched for that cycle; the misses counter is incremented by
one exactly in a cycle whose read succeeds with a foreign, runnable block
whose timestamp equals the stored `last_seen`. -/
theorem c4_failed_read_misses (ctx : qd_ctx) (r : Option status_block_t)
    (ni : node_info_t) :
    ((read_node_block ctx r ni).1.ni_misses = ni.ni_misses + 1 ↔
      ∃ sb, r = some sb ∧ sb.ps_nodeid ≠ ctx.qc_my_id ∧
        state_run sb.ps_state = true ∧ sb.ps_timestamp = ni.ni_last_seen) ∧
    (r = none → (read_node_block ctx r ni).1.ni_last_seen = ni.ni_last_seen ∧
      (read_node_block ctx r ni).1.ni_misses = ni.ni_misses) := by
  constructor
  · cases r with
    | none => simp [read_node_block]
    | some sb =>
      simp only [read_node_block]
      split
      · rename_i hown
        simp only [Option.some.injEq]
        constructor
        · intro h; omega
        · rintro ⟨sb', rfl, hne, _, _⟩; exact absurd hown hne
      · rename_i hown
        split
        · rename_i hrun
          simp only [Option.some.injEq]
          constructor
          · intro h; omega
          · rintro ⟨sb', rfl, _, hr, _⟩; rw [hrun] at hr; cases hr
        · rename_i hrun
          split
          · rename_i hts
            simp only [Option.some.injEq, true_iff]
            exact ⟨sb, rfl, hown, by simpa using hrun, hts⟩
          · rename_i hts
            simp only [Option.some.injEq]
            constructor
            · intro h; omega
            · rintro ⟨sb', rfl, _, _, hts'⟩; exact absurd hts' hts
  · rintro rfl
    simp [read_node_block]

def c4ctx : qd_ctx :=
  ⟨1, disk_node_state_t.S_RUN, 0, 1, 10, 2, 2, 5, 0, true, false, false, true, true⟩

def c4ni : node_info_t :=
  ⟨⟨2, disk_node_state_t.S_RUN, 2, 50, 7, 0, 0, 0, ∅⟩, 7, 0, 50, 3, 4,
   ⟨0, 0, 0⟩, ⟨0, 0, 0⟩, disk_node_state_t.S_RUN⟩

/-- Counterexample for C4 as stated: a failed read (classified transient)
leaves the misses counter at 3 — it is not incremented in that cycle. -/
theorem c4_counterexample :
    (read_node_blocks c4ctx [none] [c4ni]).1 = [c4ni] ∧ c4ni.ni_misses = 3 ∧
    ((read_node_blocks c4ctx [none] [c4ni]).1.headD node_info_default).ni_misses ≠
      c4ni.ni_misses + 1 := by decide

def c4sb : status_block_t := ⟨2, disk_node_state_t.S_RUN, 2, 50, 7, 0, 0, 0, ∅⟩

/-- Witness for C4 (amended): a successful read with an unchanged
timestamp increments the misses counter. -/
theorem c4_failed_read_misses_witness :
    (read_node_block c4ctx (some c4sb) c4ni).1.ni_misses = c4ni.ni_misses + 1 :=
  (c4_failed_read_misses c4ctx (some c4sb) c4ni).1.mpr
    ⟨c4sb, rfl, by decide, by decide, by decide⟩

/-! ## C10 -/

/-- C10: a slot whose status-block read fails keeps its entire in-memory
record for that pass of `read_node_blocks` — stored status copy, message
slots, misses, seen and last_seen included. -/
theorem c10_failed_read_frame (ctx : qd_ctx) (reads : List (Option status_block_t))
    (nis : List node_info_t) (x : Nat) (h : reads[x]? = some none) :
    (read_node_blocks ctx reads nis).1[x]? = nis[x]? := by
  induction reads generalizing nis x with
  | nil => simp at h
  | cons r rs ih =>
    cases nis with
    | nil => simp [read_node_blocks]
    | cons ni nis =>
      cases x with
      | zero =>
        simp only [List.getElem?_cons_zero, Option.some.injEq] at h
        subst h
        simp [read_node_blocks, read_node_block]
      | succ n =>
        simp only [List.getElem?_cons_succ] at h
        simp only [read_node_blocks]
        split <;> simp [ih nis n h]

open disk_node_state_t in
/-- A running tracked state sits at or above `S_INIT`. -/
theorem state_run_toNat (s : disk_node_state_t) (h : state_run s = true) :
    2 ≤ s.toNat := by
  cases s <;> simp_all [state_run, disk_node_state_t.toNat]

open disk_node_state_t in
/-- Case 1 of `check_transitions` (down / restart): the peer drops to
NONE; `evil_incarnation` survives exactly when the observed state was
EVICT; nothing is written. -/
theorem ctn_down (ctx : qd_ctx) (ni : node_info_t) (mask : Option memb_mask_t)
    (h1 : down_restart_cond ni) :
    (check_transition_node ctx ni mask).ni.ni_state = S_NONE ∧
    (check_transition_node ctx ni mask).ni.ni_evil_incarnation =
      (if ni.ni_status.ps_state = S_EVICT then ni.ni_evil_incarnation else 0) ∧
    (check_transition_node ctx ni mask).ni.ni_incarnation = 0 ∧
    (check_transition_node ctx ni mask).ni.ni_status = ni.ni_status ∧
    (check_transition_node ctx ni mask).writes = [] := by
  unfold check_transition_node
  rw [if_pos h1]
  dsimp only
  split_ifs <;> exact ⟨rfl, rfl, rfl, rfl, rfl⟩

open disk_node_state_t in
/-- Case 2 of `check_transitions` (heartbeat timeout): the peer is marked
EVICT in both views, the observed incarnation is recorded as evil, and an
eviction notice is written only when this node is the master. -/
theorem ctn_evict (ctx : qd_ctx) (ni : node_info_t) (mask : Option memb_mask_t)
    (h1 : ¬ down_restart_cond ni)
    (h2 : ctx.qc_tko < ni.ni_misses ∧ state_run ni.ni_status.ps_state = true) :
    (check_transition_node ctx ni mask).ni.ni_state = S_EVICT ∧
    (check_transition_node ctx ni mask).ni.ni_evil_incarnation =
      ni.ni_status.ps_incarnation ∧
    (check_transition_node ctx ni mask).ni.ni_incarnation = ni.ni_incarnation ∧
    (check_transition_node ctx ni mask).ni.ni_status.ps_state = S_EVICT ∧
    (check_transition_node ctx ni mask).ni.ni_status.ps_incarnation =
      ni.ni_status.ps_incarnation ∧
    (check_transition_node ctx ni mask).writes =
      (if ctx.qc_status = S_MASTER then [ni.ni_status.ps_nodeid] else []) := by
  unfold check_transition_node
  rw [if_neg h1, if_pos h2]
  dsimp only
  split_ifs <;> exact ⟨rfl, rfl, rfl, rfl, rfl, rfl⟩

open disk_node_state_t in
/-- Case 3 of `check_transitions` (undead): the record keeps its tracked
state and bookkeeping, the observed state is forced to EVICT, and an
eviction notice is written whether or not this node is the master. -/
theorem ctn_undead (ctx : qd_ctx) (ni : node_info_t) (mask : Option memb_mask_t)
    (h1 : ¬ down_restart_cond ni)
    (h2 : ¬ (ctx.qc_tko < ni.ni_misses ∧ state_run ni.ni_status.ps_state = true))
    (h3 : ni.ni_evil_incarnation ≠ 0 ∧
          ni.ni_evil_incarnation = ni.ni_status.ps_incarnation) :
    (check_transition_node ctx ni mask).ni.ni_state = ni.ni_state ∧
    (check_transition_node ctx ni mask).ni.ni_evil_incarnation =
      ni.ni_evil_incarnation ∧
    (check_transition_node ctx ni mask).ni.ni_incarnation = ni.ni_incarnation ∧
    (check_transition_node ctx ni mask).ni.ni_status.ps_state = S_EVICT ∧
    (check_transition_node ctx ni mask).ni.ni_status.ps_incarnation =
      ni.ni_status.ps_incarnation ∧
    (check_transition_node ctx ni mask).writes = [ni.ni_status.ps_nodeid] := by
  unfold check_transition_node
  rw [if_neg h1, if_neg h2, if_pos h3]
  exact ⟨rfl, rfl, rfl, rfl, rfl, rfl⟩

open disk_node_state_t in
/-- Case 4 of `check_transitions` (come-up): the peer joins as RUN and its
observed incarnation is adopted; nothing is written. -/
theorem ctn_comeup (ctx : qd_ctx) (ni : node_info_t) (mask : Option memb_mask_t)
    (h1 : ¬ down_restart_cond ni)
    (h2 : ¬ (ctx.qc_tko < ni.ni_misses ∧ state_run ni.ni_status.ps_state = true))
    (h3 : ¬ (ni.ni_evil_incarnation ≠ 0 ∧
             ni.ni_evil_incarnation = ni.ni_status.ps_incarnation))
    (h4 : ctx.qc_tko_up < ni.ni_seen ∧ state_run ni.ni_state = false) :
    (check_transition_node ctx ni mask).ni.ni_state = S_RUN ∧
    (check_transition_node ctx ni mask).ni.ni_evil_incarnation =
      ni.ni_evil_incarnation ∧
    (check_transition_node ctx ni mask).writes = [] := by
  unfold check_transition_node
  rw [if_neg h1, if_neg h2, if_neg h3, if_pos h4]
  exact ⟨rfl, rfl, rfl⟩

open disk_node_state_t in
/-- Case 5 of `check_transitions` (master promotion). -/
theorem ctn_masterp (ctx : qd_ctx) (ni : node_info_t) (mask : Option memb_mask_t)
    (h1 : ¬ down_restart_cond ni)
    (h2 : ¬ (ctx.qc_tko < ni.ni_misses ∧ state_run ni.ni_status.ps_state = true))
    (h3 : ¬ (ni.ni_evil_incarnation ≠ 0 ∧
             ni.ni_evil_incarnation = ni.ni_status.ps_incarnation))
    (h4 : ¬ (ctx.qc_tko_up < ni.ni_seen ∧ state_run ni.ni_state = false))
    (h5 : ni.ni_state = S_RUN ∧ ni.ni_status.ps_state = S_MASTER) :
    (check_transition_node ctx ni mask).ni.ni_state = S_MASTER ∧
    (check_transition_node ctx ni mask).ni.ni_evil_incarnation =
      ni.ni_evil_incarnation ∧
    (check_transition_node ctx ni mask).writes = [] := by
  unfold check_transition_node
  rw [if_neg h1, if_neg h2, if_neg h3, if_neg h4, if_pos h5]
  exact ⟨rfl, rfl, rfl⟩

open disk_node_state_t in
/-- Case 6 of `check_transitions` (believe the reported state). -/
theorem ctn_default (ctx : qd_ctx) (ni : node_info_t) (mask : Option memb_mask_t)
    (h1 : ¬ down_restart_cond ni)
    (h2 : ¬ (ctx.qc_tko < ni.ni_misses ∧ state_run ni.ni_status.ps_state = true))
    (h3 : ¬ (ni.ni_evil_incarnation ≠ 0 ∧
             ni.ni_evil_incarnation = ni.ni_status.ps_incarnation))
    (h4 : ¬ (ctx.qc_tko_up < ni.ni_seen ∧ state_run ni.ni_state = false))
    (h5 : ¬ (ni.ni_state = S_RUN ∧ ni.ni_status.ps_state = S_MASTER))
    (h6 : state_run ni.ni_state = true) :
    (check_transition_node ctx ni mask).ni.ni_state = ni.ni_status.ps_state ∧
    (check_transition_node ctx ni mask).ni.ni_evil_incarnation =
      ni.ni_evil_incarnation ∧
    (check_transition_node ctx ni mask).writes = [] := by
  unfold check_transition_node
  rw [if_neg h1, if_neg h2, if_neg h3, if_neg h4, if_neg h5, if_pos h6]
  exact ⟨rfl, rfl, rfl⟩

open disk_node_state_t in
/-- Fall-through of `check_transitions`: the record is untouched. -/
theorem ctn_else (ctx : qd_ctx) (ni : node_info_t) (mask : Option memb_mask_t)
    (h1 : ¬ down_restart_cond ni)
    (h2 : ¬ (ctx.qc_tko < ni.ni_misses ∧ state_run ni.ni_status.ps_state = true))
    (h3 : ¬ (ni.ni_evil_incarnation ≠ 0 ∧
             ni.ni_evil_incarnation = ni.ni_status.ps_incarnation))
    (h4 : ¬ (ctx.qc_tko_up < ni.ni_seen ∧ state_run ni.ni_state = false))
    (h5 : ¬ (ni.ni_state = S_RUN ∧ ni.ni_status.ps_state = S_MASTER))
    (h6 : ¬ state_run ni.ni_state = true) :
    check_transition_node ctx ni mask = ⟨ni, mask, []⟩ := by
  unfold check_transition_node
  rw [if_neg h1, if_neg h2, if_neg h3, if_neg h4, if_neg h5,
      if_neg (by simpa using h6)]

/-! ## C5 -/

open disk_node_state_t in
/-- C5 (amended): a tracked peer moves to EVICT exactly when `misses > tko`
with a runnable observed state and the down/restart case does not fire
first; the heartbeat-timeout eviction notice is written only by the
master, but the undead case re-writes EVICT into the peer's slot no
matter what the local state is. -/
theorem c5_evict_transition_and_writes (ctx : qd_ctx) (ni : node_info_t)
    (mask : Option memb_mask_t) :
    (((check_transition_node ctx ni mask).ni.ni_state = S_EVICT ∧
        ni.ni_state ≠ S_EVICT) ↔
      (¬ down_restart_cond ni ∧ ctx.qc_tko < ni.ni_misses ∧
        state_run ni.ni_status.ps_state = true ∧ ni.ni_state ≠ S_EVICT)) ∧
    ((check_transition_node ctx ni mask).writes ≠ [] ↔
      ((¬ down_restart_cond ni ∧ ctx.qc_tko < ni.ni_misses ∧
          state_run ni.ni_status.ps_state = true) ∧ ctx.qc_status = S_MASTER) ∨
      (¬ down_restart_cond ni ∧
        ¬ (ctx.qc_tko < ni.ni_misses ∧ state_run ni.ni_status.ps_state = true) ∧
        ni.ni_evil_incarnation ≠ 0 ∧
        ni.ni_evil_incarnation = ni.ni_status.ps_incarnation)) := by
  by_cases h1 : down_restart_cond ni
  · obtain ⟨hs, _, _, _, hw⟩ := ctn_down ctx ni mask h1
    exact ⟨by rw [hs]; simp [h1], by rw [hw]; simp [h1]⟩
  · by_cases h2 : ctx.qc_tko < ni.ni_misses ∧ state_run ni.ni_status.ps_state = true
    · obtain ⟨hs, _, _, _, _, hw⟩ := ctn_evict ctx ni mask h1 h2
      constructor
      · rw [hs]; simp [h1, h2.1, h2.2]
      · rw [hw]
        by_cases hM : ctx.qc_status = S_MASTER <;> simp [hM, h1, h2]
    · by_cases h3 : ni.ni_evil_incarnation ≠ 0 ∧
          ni.ni_evil_incarnation = ni.ni_status.ps_incarnation
      · obtain ⟨hs, _, _, _, _, hw⟩ := ctn_undead ctx ni mask h1 h2 h3
        constructor
        · rw [hs]
          simp only [iff_def]
          constructor
          · rintro ⟨hE, hnE⟩; exact absurd hE hnE
          · rintro ⟨_, hk, hrn, _⟩; exact absurd ⟨hk, hrn⟩ h2
        · rw [hw]
          constructor
          · intro _; exact Or.inr ⟨h1, h2, h3.1, h3.2⟩
          · intro _; simp
      · have hfirst : ¬ ((check_transition_node ctx ni mask).ni.ni_state = S_EVICT ∧
            ni.ni_state ≠ S_EVICT) := by
          by_cases h4 : ctx.qc_tko_up < ni.ni_seen ∧ state_run ni.ni_state = false
          · obtain ⟨hs, _, _⟩ := ctn_comeup ctx ni mask h1 h2 h3 h4
            rw [hs]; rintro ⟨hE, _⟩; cases hE
          · by_cases h5 : ni.ni_state = S_RUN ∧ ni.ni_status.ps_state = S_MASTER
            · obtain ⟨hs, _, _⟩ := ctn_masterp ctx ni mask h1 h2 h3 h4 h5
              rw [hs]; rintro ⟨hE, _⟩; cases hE
            · by_cases h6 : state_run ni.ni_state = true
              · obtain ⟨hs, _, _⟩ := ctn_default ctx ni mask h1 h2 h3 h4 h5 h6
                rw [hs]; rintro ⟨hE, _⟩
                have hrun2 := state_run_toNat _ h6
                refine h1 (Or.inl ⟨?_, by rw [hE]⟩)
                show (1 : Nat) ≤ ni.ni_state.toNat
                omega
              · have hs := ctn_else ctx ni mask h1 h2 h3 h4 h5 h6
                rw [hs]; rintro ⟨hE, hnE⟩; exact hnE hE
        have hwrites : (check_transition_node ctx ni mask).writes = [] := by
          by_cases h4 : ctx.qc_tko_up < ni.ni_seen ∧ state_run ni.ni_state = false
          · exact (ctn_comeup ctx ni mask h1 h2 h3 h4).2.2
          · by_cases h5 : ni.ni_state = S_RUN ∧ ni.ni_status.ps_state = S_MASTER
            · exact (ctn_masterp ctx ni mask h1 h2 h3 h4 h5).2.2
            · by_cases h6 : state_run ni.ni_state = true
              · exact (ctn_default ctx ni mask h1 h2 h3 h4 h5 h6).2.2
              · rw [ctn_else ctx ni mask h1 h2 h3 h4 h5 h6]
        constructor
        · simp only [hfirst, false_iff]
          rintro ⟨_, hk, hrn, _⟩; exact absurd ⟨hk, hrn⟩ h2
        · rw [hwrites]; simp [h2, h3]

def c5ctx : qd_ctx :=
  ⟨1, disk_node_state_t.S_RUN, 0, 1, 10, 2, 2, 5, 0, true, false, false, true, true⟩

def c5ni : node_info_t :=
  ⟨⟨2, disk_node_state_t.S_RUN, 2, 10, 7, 0, 0, 0, ∅⟩, 0, 7, 10, 0, 0,
   ⟨0, 0, 0⟩, ⟨0, 0, 0⟩, disk_node_state_t.S_NONE⟩

/-- Counterexample for C5 as stated: a node whose local state is RUN (not
master) writes an EVICT notice into peer 2's slot, via the undead case. -/
theorem c5_counterexample :
    (check_transition_node c5ctx c5ni (some ∅)).writes = [2] ∧
    c5ctx.qc_status ≠ disk_node_state_t.S_MASTER := by decide

def c5bctx : qd_ctx :=
  ⟨1, disk_node_state_t.S_MASTER, 0, 1, 10, 2, 2, 5, 0, true, false, false, true, true⟩

def c5bni : node_info_t :=
  ⟨⟨2, disk_node_state_t.S_RUN, 2, 10, 7, 0, 0, 0, ∅⟩, 0, 0, 10, 11, 1,
   ⟨0, 0, 0⟩, ⟨0, 0, 0⟩, disk_node_state_t.S_RUN⟩

/-- Witness for C5 (amended): a peer with 11 misses against tko 10 and a
runnable observed state transitions to EVICT. -/
theorem c5_evict_transition_witness :
    (check_transition_node c5bctx c5bni (some ∅)).ni.ni_state =
      disk_node_state_t.S_EVICT ∧
    c5bni.ni_state ≠ disk_node_state_t.S_EVICT :=
  (c5_evict_transition_and_writes c5bctx c5bni (some ∅)).1.mpr (by decide)

/-! ## C6 -/

open disk_node_state_t in
/-- C6 (amended): assuming the peer's block carries a nonzero incarnation
(the source writes the start time there), a nonzero `evil_incarnation` is
reset to zero only by the down/restart case and only when the observed
state is not EVICT — that is, when the block's state returned to NONE or
its incarnation changed; when the observed state is EVICT the field is
preserved unchanged. -/
theorem c6_evil_cleared_only_on_shutdown (ctx : qd_ctx) (ni : node_info_t)
    (mask : Option memb_mask_t) :
    (ni.ni_status.ps_incarnation ≠ 0 → ni.ni_evil_incarnation ≠ 0 →
      (check_transition_node ctx ni mask).ni.ni_evil_incarnation = 0 →
      down_restart_cond ni ∧ ni.ni_status.ps_state ≠ S_EVICT) ∧
    (ni.ni_status.ps_state = S_EVICT →
      (check_transition_node ctx ni mask).ni.ni_evil_incarnation =
        ni.ni_evil_incarnation) := by
  constructor
  · intro hpi he h0
    by_cases h1 : down_restart_cond ni
    · refine ⟨h1, ?_⟩
      intro hE
      obtain ⟨_, hev, _, _, _⟩ := ctn_down ctx ni mask h1
      rw [hev, if_pos hE] at h0
      exact he h0
    · exfalso
      by_cases h2 : ctx.qc_tko < ni.ni_misses ∧ state_run ni.ni_status.ps_state = true
      · obtain ⟨_, hev, _, _, _, _⟩ := ctn_evict ctx ni mask h1 h2
        rw [hev] at h0
        exact hpi h0
      · by_cases h3 : ni.ni_evil_incarnation ≠ 0 ∧
            ni.ni_evil_incarnation = ni.ni_status.ps_incarnation
        · obtain ⟨_, hev, _, _, _, _⟩ := ctn_undead ctx ni mask h1 h2 h3
          rw [hev] at h0
          exact he h0
        · by_cases h4 : ctx.qc_tko_up < ni.ni_seen ∧ state_run ni.ni_state = false
          · obtain ⟨_, hev, _⟩ := ctn_comeup ctx ni mask h1 h2 h3 h4
            rw [hev] at h0
            exact he h0
          · by_cases h5 : ni.ni_state = S_RUN ∧ ni.ni_status.ps_state = S_MASTER
            · obtain ⟨_, hev, _⟩ := ctn_masterp ctx ni mask h1 h2 h3 h4 h5
              rw [hev] at h0
              exact he h0
            · by_cases h6 : state_run ni.ni_state = true
              · obtain ⟨_, hev, _⟩ := ctn_default ctx ni mask h1 h2 h3 h4 h5 h6
                rw [hev] at h0
                exact he h0
              · rw [ctn_else ctx ni mask h1 h2 h3 h4 h5 h6] at h0
                exact he h0
  · intro hE
    by_cases h1 : down_restart_cond ni
    · obtain ⟨_, hev, _, _, _⟩ := ctn_down ctx ni mask h1
      rw [hev, if_pos hE]
    · by_cases h2 : ctx.qc_tko < ni.ni_misses ∧ state_run ni.ni_status.ps_state = true
      · exfalso
        rw [hE] at h2
        exact absurd h2.2 (by decide)
      · by_cases h3 : ni.ni_evil_incarnation ≠ 0 ∧
            ni.ni_evil_incarnation = ni.ni_status.ps_incarnation
        · exact (ctn_undead ctx ni mask h1 h2 h3).2.1
        · by_cases h4 : ctx.qc_tko_up < ni.ni_seen ∧ state_run ni.ni_state = false
          · exact (ctn_comeup ctx ni mask h1 h2 h3 h4).2.1
          · by_cases h5 : ni.ni_state = S_RUN ∧ ni.ni_status.ps_state = S_MASTER
            · exact (ctn_masterp ctx ni mask h1 h2 h3 h4 h5).2.1
            · by_cases h6 : state_run ni.ni_state = true
              · exact (ctn_default ctx ni mask h1 h2 h3 h4 h5 h6).2.1
              · rw [ctn_else ctx ni mask h1 h2 h3 h4 h5 h6]

def c6ctx : qd_ctx :=
  ⟨1, disk_node_state_t.S_RUN, 0, 1, 10, 2, 2, 5, 0, true, false, false, true, true⟩

def c6ni : node_info_t :=
  ⟨⟨2, disk_node_state_t.S_RUN, 2, 10, 4, 0, 0, 0, ∅⟩, 3, 5, 0, 0, 0,
   ⟨0, 0, 0⟩, ⟨0, 0, 0⟩, disk_node_state_t.S_RUN⟩

/-- Counterexample for C6 as stated: peer 2's record holds
`evil_incarnation = 5`; its block reports state RUN (never NONE) with a
changed incarnation, and the down/restart case clears the field anyway. -/
theorem c6_counterexample :
    c6ni.ni_evil_incarnation = 5 ∧
    c6ni.ni_status.ps_state = disk_node_state_t.S_RUN ∧
    c6ni.ni_status.ps_state ≠ disk_node_state_t.S_NONE ∧
    (check_transition_node c6ctx c6ni (some ∅)).ni.ni_evil_incarnation = 0 := by
  decide

def c6bni : node_info_t :=
  ⟨⟨2, disk_node_state_t.S_NONE, 2, 10, 4, 0, 0, 0, ∅⟩, 3, 5, 0, 0, 0,
   ⟨0, 0, 0⟩, ⟨0, 0, 0⟩, disk_node_state_t.S_RUN⟩

/-- Witness for C6 (amended): when a nonzero `evil_incarnation` is
cleared, the down/restart case fired with an observed state that is not
EVICT. -/
theorem c6_evil_cleared_only_on_shutdown_witness :
    down_restart_cond c6bni ∧
    c6bni.ni_status.ps_state ≠ disk_node_state_t.S_EVICT :=
  (c6_evil_cleared_only_on_shutdown c6ctx c6bni (some ∅)).1 (by decide) (by decide)
    (by decide)

/-! ## C7 -/

open disk_node_state_t in
/-- One read-and-check cycle preserves the undead bookkeeping: while the
record holds `evil_incarnation = x`, its tracked incarnation is 0 or `x`,
and every observed block carries incarnation `x` and a state other than
NONE, the record keeps `evil_incarnation = x`, never reaches RUN, and the
same invariant holds afterwards. -/
theorem peer_cycle_undead_step (ctx : qd_ctx) (r : Option status_block_t)
    (ni : node_info_t) (x : Nat) (hx : x ≠ 0)
    (hE : ni.ni_evil_incarnation = x)
    (hI : ni.ni_incarnation = 0 ∨ ni.ni_incarnation = x)
    (hPI : ni.ni_status.ps_incarnation = x)
    (hPS : ni.ni_status.ps_state ≠ S_NONE)
    (hS : ni.ni_state ≠ S_RUN)
    (hr : ∀ sb, r = some sb → sb.ps_incarnation = x ∧ sb.ps_state ≠ S_NONE) :
    (peer_cycle ctx r ni).ni_evil_incarnation = x ∧
    ((peer_cycle ctx r ni).ni_incarnation = 0 ∨
      (peer_cycle ctx r ni).ni_incarnation = x) ∧
    (peer_cycle ctx r ni).ni_status.ps_incarnation = x ∧
    (peer_cycle ctx r ni).ni_status.ps_state ≠ S_NONE ∧
    (peer_cycle ctx r ni).ni_state ≠ S_RUN := by
  obtain ⟨he, hi, hs, hst⟩ := read_node_block_keeps_tracking ctx r ni
  have hE' : (read_node_block ctx r ni).1.ni_evil_incarnation = x := he.trans hE
  have hI' : (read_node_block ctx r ni).1.ni_incarnation = 0 ∨
      (read_node_block ctx r ni).1.ni_incarnation = x := by
    rw [hi]; exact hI
  have hS' : (read_node_block ctx r ni).1.ni_state ≠ S_RUN := by rw [hs]; exact hS
  have hPI' : (read_node_block ctx r ni).1.ni_status.ps_incarnation = x := by
    rcases hst with h | ⟨sb, hsb, h⟩
    · rw [h]; exact hPI
    · rw [h]; exact (hr sb hsb).1
  have hPS' : (read_node_block ctx r ni).1.ni_status.ps_state ≠ S_NONE := by
    rcases hst with h | ⟨sb, hsb, h⟩
    · rw [h]; exact hPS
    · rw [h]; exact (hr sb hsb).2
  set ni' := (read_node_block ctx r ni).1 with hni'
  unfold peer_cycle
  rw [← hni']
  by_cases h1 : down_restart_cond ni'
  · have hps : ni'.ni_status.ps_state = S_EVICT := by
      rcases h1 with ⟨_, hle⟩ | ⟨hne, hmm⟩
      · revert hle hPS'
        cases ni'.ni_status.ps_state <;>
          simp [disk_node_state_t.toNat]
      · exfalso
        rcases hI' with h0 | hX
        · exact hne h0
        · rw [hX, hPI'] at hmm
          exact hmm rfl
    obtain ⟨hs1, hev, hinc, hstat, _⟩ := ctn_down ctx ni' none h1
    rw [if_pos hps] at hev
    refine ⟨hev.trans hE', Or.inl hinc, ?_, ?_, ?_⟩
    · rw [hstat]; exact hPI'
    · rw [hstat, hps]; decide
    · rw [hs1]; decide
  · by_cases h2 : ctx.qc_tko < ni'.ni_misses ∧ state_run ni'.ni_status.ps_state = true
    · obtain ⟨hs2, hev, hinc, hps2, hpi2, _⟩ := ctn_evict ctx ni' none h1 h2
      refine ⟨hev.trans hPI', ?_, hpi2.trans hPI', ?_, ?_⟩
      · rw [hinc]; exact hI'
      · rw [hps2]; decide
      · rw [hs2]; decide
    · have h3 : ni'.ni_evil_incarnation ≠ 0 ∧
          ni'.ni_evil_incarnation = ni'.ni_status.ps_incarnation := by
        constructor
        · rw [hE']; exact hx
        · rw [hE', hPI']
      obtain ⟨hs3, hev3, hinc3, hps3, hpi3, _⟩ := ctn_undead ctx ni' none h1 h2 h3
      refine ⟨hev3.trans hE', ?_, hpi3.trans hPI', ?_, ?_⟩
      · rw [hinc3]; exact hI'
      · rw [hps3]; decide
      · rw [hs3]; exact hS'

open disk_node_state_t in
/-- C7 (amended): as long as the record keeps holding
`evil_incarnation = x` — which it does while every observed block carries
incarnation `x` and a state other than NONE (a NONE observation is the
clean shutdown that clears the field) — no number of cycles can move the
peer's tracked state to RUN: the undead case fires before, and
suppresses, the come-up case. -/
theorem c7_undead_never_run (ctx : qd_ctx) (rs : List (Option status_block_t))
    (ni : node_info_t) (x : Nat) (hx : x ≠ 0)
    (hE : ni.ni_evil_incarnation = x)
    (hI : ni.ni_incarnation = 0 ∨ ni.ni_incarnation = x)
    (hPI : ni.ni_status.ps_incarnation = x)
    (hPS : ni.ni_status.ps_state ≠ S_NONE)
    (hS : ni.ni_state ≠ S_RUN)
    (hr1 : reads_have_incarnation x rs = true)
    (hr2 : reads_not_none_state rs = true) :
    (peer_cycles ctx rs ni).ni_state ≠ S_RUN ∧
    (peer_cycles ctx rs ni).ni_evil_incarnation = x := by
  induction rs generalizing ni with
  | nil => exact ⟨hS, hE⟩
  | cons r rest ih =>
    have hhead : ∀ sb, r = some sb → sb.ps_incarnation = x ∧ sb.ps_state ≠ S_NONE := by
      intro sb hsb
      subst hsb
      simp only [reads_have_incarnation, List.all_cons, Bool.and_eq_true] at hr1
      simp only [reads_not_none_state, List.all_cons, Bool.and_eq_true] at hr2
      exact ⟨by simpa using hr1.1, by simpa using hr2.1⟩
    have htail1 : reads_have_incarnation x rest = true := by
      simp only [reads_have_incarnation, List.all_cons, Bool.and_eq_true] at hr1
      exact hr1.2
    have htail2 : reads_not_none_state rest = true := by
      simp only [reads_not_none_state, List.all_cons, Bool.and_eq_true] at hr2
      exact hr2.2
    obtain ⟨sE, sI, sPI, sPS, sS⟩ :=
      peer_cycle_undead_step ctx r ni x hx hE hI hPI hPS hS hhead
    simp only [peer_cycles]
    exact ih (peer_cycle ctx r ni) sE sI sPI sPS sS htail1 htail2

def c7ctx : qd_ctx :=
  ⟨1, disk_node_state_t.S_RUN, 0, 1, 10, 2, 2, 5, 0, true, false, false, true, true⟩

def c7ni : node_info_t :=
  ⟨⟨2, disk_node_state_t.S_EVICT, 1, 5, 9, 0, 0, 0, ∅⟩, 9, 9, 5, 0, 0,
   ⟨0, 0, 0⟩, ⟨0, 0, 0⟩, disk_node_state_t.S_EVICT⟩

def c7reads : List (Option status_block_t) :=
  [some ⟨2, disk_node_state_t.S_NONE, 2, 11, 9, 0, 0, 0, ∅⟩,
   some ⟨2, disk_node_state_t.S_RUN, 2, 12, 9, 0, 0, 0, ∅⟩,
   some ⟨2, disk_node_state_t.S_RUN, 2, 13, 9, 0, 0, 0, ∅⟩,
   some ⟨2, disk_node_state_t.S_RUN, 2, 14, 9, 0, 0, 0, ∅⟩]

/-- Counterexample for C7 as stated: the record once holds
`evil_incarnation = 9`, every later observed block still carries
incarnation 9, yet after a clean-shutdown observation (state NONE, which
clears the field) the come-up case fires and the tracked state reaches
RUN. -/
theorem c7_counterexample :
    c7ni.ni_evil_incarnation = 9 ∧ (9 : Nat) ≠ 0 ∧
    reads_have_incarnation 9 c7reads = true ∧
    c7ni.ni_state ≠ disk_node_state_t.S_RUN ∧
    (peer_cycles c7ctx c7reads c7ni).ni_state = disk_node_state_t.S_RUN := by
  decide

def c7bni : node_info_t :=
  ⟨⟨2, disk_node_state_t.S_EVICT, 1, 5, 4, 0, 0, 0, ∅⟩, 0, 4, 5, 0, 0,
   ⟨0, 0, 0⟩, ⟨0, 0, 0⟩, disk_node_state_t.S_EVICT⟩

def c7breads : List (Option status_block_t) :=
  [some ⟨2, disk_node_state_t.S_RUN, 2, 21, 4, 0, 0, 0, ∅⟩,
   some ⟨2, disk_node_state_t.S_RUN, 2, 22, 4, 0, 0, 0, ∅⟩,
   some ⟨2, disk_node_state_t.S_RUN, 2, 23, 4, 0, 0, 0, ∅⟩,
   none,
   some ⟨2, disk_node_state_t.S_RUN, 2, 24, 4, 0, 0, 0, ∅⟩]

/-- Witness for C7 (amended): a peer writing runnable blocks under its
evicted incarnation is never re-admitted to RUN, over a five-cycle trace
with one failed read. -/
theorem c7_undead_never_run_witness :
    (peer_cycles c7ctx c7breads c7bni).ni_state ≠ disk_node_state_t.S_RUN ∧
    (peer_cycles c7ctx c7breads c7bni).ni_evil_incarnation = 4 :=
  c7_undead_never_run c7ctx c7breads c7bni 4 (by decide) (by decide)
    (by decide) (by decide) (by decide) (by decide) (by decide) (by decide)

/-! ## Cycle-level helper lemmas -/

/-- Unfolding `quorum_cycle` on the mid path. -/
theorem quorum_cycle_eq_mid (env : CycleEnv) (st : LoopState) (m : MidState)
    (h : cycle_pre env st = MidResult.mid m) :
    quorum_cycle env st = quorum_cycle_rest env (resolve_conflict m) := by
  unfold quorum_cycle
  rw [h]

/-- Unfolding `quorum_cycle` on the early-reboot path. -/
theorem quorum_cycle_eq_reboot (env : CycleEnv) (st : LoopState) (r : RebootReason)
    (h : cycle_pre env st = MidResult.reboot r) :
    quorum_cycle env st = CycleResult.reboot r := by
  unfold quorum_cycle
  rw [h]

/-- Unfolding `quorum_cycle_rest` when the decision chain continues. -/
theorem quorum_cycle_rest_some (env : CycleEnv) (m m2 : MidState)
    (h : cycle_decide env m = some m2) :
    quorum_cycle_rest env m = cycle_finish env m2 := by
  unfold quorum_cycle_rest
  rw [h]

/-- Unfolding `quorum_cycle_rest` when the membership service is dead. -/
theorem quorum_cycle_rest_none (env : CycleEnv) (m : MidState)
    (h : cycle_decide env m = none) :
    quorum_cycle_rest env m = CycleResult.halt := by
  unfold quorum_cycle_rest
  rw [h]

/-- The configuration fields of the context survive `cycle_pre`
untouched (only `qc_status` and `qc_master` are written). -/
theorem cycle_pre_config (env : CycleEnv) (st : LoopState) (m : MidState)
    (h : cycle_pre env st = MidResult.mid m) :
    m.mid_ctx.qc_my_id = st.ctx.qc_my_id ∧
    m.mid_ctx.qc_interval = st.ctx.qc_interval ∧
    m.mid_ctx.qc_tko = st.ctx.qc_tko ∧
    m.mid_ctx.qc_master_wait = st.ctx.qc_master_wait ∧
    m.mid_ctx.rf_paranoid = st.ctx.rf_paranoid ∧
    m.mid_ctx.rf_debug = st.ctx.rf_debug := by
  unfold cycle_pre at h
  dsimp only at h
  split_ifs at h <;>
    first
      | exact MidResult.noConfusion h
      | (injection h with h2; subst h2; exact ⟨rfl, rfl, rfl, rfl, rfl, rfl⟩)

open disk_node_state_t in
/-- When the sampled score falls short of the required score, `cycle_pre`
leaves the loop (for this cycle) in state NONE with no pending bid and
with our own mask bit cleared — provided a pending bid can only coexist
with local state RUN, which the loop maintains. -/
theorem cycle_pre_score_short (env : CycleEnv) (st : LoopState) (m : MidState)
    (hinv : st.bid_pending ≠ 0 → st.ctx.qc_status = S_RUN)
    (hs : env.score < score_required st.ctx.qc_scoremin env.score_max)
    (h : cycle_pre env st = MidResult.mid m) :
    m.mid_ctx.qc_status = S_NONE ∧ m.mid_bid = 0 ∧
    is_bit_set m.mid_mask (st.ctx.qc_my_id - 1) = false := by
  unfold cycle_pre at h
  dsimp only at h
  split_ifs at h <;>
    first
      | exact MidResult.noConfusion h
      | exact absurd hs (by assumption)
      | (injection h with h2'; subst h2';
         exact ⟨rfl, rfl, by simp [post_master, is_bit_set, clear_bit]⟩)
      | (injection h with h2'; subst h2';
         have hnone : st.ctx.qc_status = S_NONE := by
           by_contra hne
           have hlt : S_NONE.toNat < st.ctx.qc_status.toNat := by
             revert hne
             cases st.ctx.qc_status <;> simp [disk_node_state_t.toNat]
           simp_all
         have hbid : st.bid_pending = 0 := by
           by_contra hb
           rw [hinv hb] at hnone
           exact absurd hnone (by decide)
         exact ⟨hnone, hbid, by simp [post_master, is_bit_set, clear_bit]⟩)

open disk_node_state_t in
/-- Conflict resolution is the identity unless the local state is
MASTER. -/
theorem resolve_conflict_no_master (m : MidState)
    (h : m.mid_ctx.qc_status ≠ S_MASTER) :
    resolve_conflict m = m := by
  unfold resolve_conflict
  rw [if_neg]
  rintro ⟨_, h2, _⟩
  exact h h2

/-- Conflict resolution touches only the status, the bid, the upgrade
counter and the message. -/
theorem resolve_conflict_config (m : MidState) :
    (resolve_conflict m).mid_ctx.qc_my_id = m.mid_ctx.qc_my_id ∧
    (resolve_conflict m).mid_ctx.qc_interval = m.mid_ctx.qc_interval ∧
    (resolve_conflict m).mid_ctx.qc_tko = m.mid_ctx.qc_tko ∧
    (resolve_conflict m).mid_ctx.rf_paranoid = m.mid_ctx.rf_paranoid ∧
    (resolve_conflict m).mid_ctx.rf_debug = m.mid_ctx.rf_debug ∧
    (resolve_conflict m).mid_mask = m.mid_mask ∧
    (resolve_conflict m).mid_ni = m.mid_ni ∧
    (resolve_conflict m).mid_ctx.qc_master = m.mid_ctx.qc_master := by
  unfold resolve_conflict
  split <;> exact ⟨rfl, rfl, rfl, rfl, rfl, rfl, rfl, rfl⟩

/-- The decision chain never touches the outgoing mask or the
configuration fields. -/
theorem cycle_decide_config (env : CycleEnv) (m m2 : MidState)
    (h : cycle_decide env m = some m2) :
    m2.mid_ctx.qc_my_id = m.mid_ctx.qc_my_id ∧
    m2.mid_ctx.qc_interval = m.mid_ctx.qc_interval ∧
    m2.mid_ctx.qc_tko = m.mid_ctx.qc_tko ∧
    m2.mid_ctx.rf_paranoid = m.mid_ctx.rf_paranoid ∧
    m2.mid_ctx.rf_debug = m.mid_ctx.rf_debug ∧
    m2.mid_mask = m.mid_mask := by
  unfold cycle_decide at h
  dsimp only at h
  split_ifs at h <;>
    first
      | exact Option.noConfusion h
      | (injection h with h2; subst h2; exact ⟨rfl, rfl, rfl, rfl, rfl, rfl⟩)

/-- With no pending bid, the decision chain cannot change the local
state: the only state-changing arm is the vote evaluation of an ongoing
bid. -/
theorem cycle_decide_status_bid0 (env : CycleEnv) (m m2 : MidState)
    (hb : m.mid_bid = 0)
    (h : cycle_decide env m = some m2) :
    m2.mid_ctx.qc_status = m.mid_ctx.qc_status := by
  unfold cycle_decide at h
  dsimp only at h
  split_ifs at h <;>
    first
      | exact Option.noConfusion h
      | (injection h with h2; subst h2; rfl)
      | (exact absurd hb (by tauto))

/-- The only reboot `cycle_finish` can issue is the paranoid
cycle-overrun one. -/
theorem cycle_finish_reboot (env : CycleEnv) (m : MidState) (r : RebootReason)
    (h : cycle_finish env m = CycleResult.reboot r) : r = RebootReason.paranoid := by
  unfold cycle_finish at h
  dsimp only at h
  split_ifs at h
  injection h with h2
  exact h2.symm

/-- What a finished cycle writes and sleeps. -/
theorem cycle_finish_finished (env : CycleEnv) (m : MidState) (d : CycleEnd)
    (h : cycle_finish env m = CycleResult.finished d) :
    d.written.ws_state = m.mid_ctx.qc_status ∧
    d.written.ws_mask = m.mid_mask ∧
    d.sleeptime = compute_sleeptime (_diff_tv env.oldtime env.newtime)
      ⟨(m.mid_ctx.qc_interval : Nat), 0⟩ := by
  unfold cycle_finish at h
  dsimp only at h
  split_ifs at h
  injection h with h2
  subst h2
  exact ⟨rfl, rfl, rfl⟩

/-! ## C1 -/

open disk_node_state_t in
/-- C1: in a cycle whose sampled score is below the required score
(`min_score` when positive, else `max_score/2 + 1`), whatever block the
node writes at the end of the cycle carries state NONE — never RUN or
MASTER — and its own mask bit is cleared.  The hypothesis that a pending
bid only coexists with local state RUN is the loop invariant established
at entry (`bid_pending = 0`) and maintained by every arm of the loop. -/
theorem c1_score_gate_no_run_or_master (env : CycleEnv) (st : LoopState)
    (hinv : st.bid_pending ≠ 0 → st.ctx.qc_status = S_RUN)
    (hs : env.score < score_required st.ctx.qc_scoremin env.score_max)
    (d : CycleEnd) (hd : quorum_cycle env st = CycleResult.finished d) :
    d.written.ws_state = S_NONE ∧
    is_bit_set d.written.ws_mask (st.ctx.qc_my_id - 1) = false := by
  rcases hpre : cycle_pre env st with r | m
  · rw [quorum_cycle_eq_reboot env st r hpre] at hd
    exact CycleResult.noConfusion hd
  · rw [quorum_cycle_eq_mid env st m hpre] at hd
    obtain ⟨hstat, hbid, hmask⟩ := cycle_pre_score_short env st m hinv hs hpre
    rw [resolve_conflict_no_master m (by rw [hstat]; decide)] at hd
    rcases hdec : cycle_decide env m with _ | m2
    · rw [quorum_cycle_rest_none env m hdec] at hd
      exact CycleResult.noConfusion hd
    · rw [quorum_cycle_rest_some env m m2 hdec] at hd
      have hst2 := cycle_decide_status_bid0 env m m2 hbid hdec
      obtain ⟨_, _, _, _, _, hmask2⟩ := cycle_decide_config env m m2 hdec
      obtain ⟨hw1, hw2, _⟩ := cycle_finish_finished env m2 d hd
      constructor
      · rw [hw1, hst2, hstat]
      · rw [hw2, hmask2]
        exact hmask

def c1st : LoopState :=
  ⟨⟨1, disk_node_state_t.S_RUN, 0, 1, 10, 2, 2, 5, 0, false, false, false, true, true⟩,
   [], ⟨0, 0, 0⟩, 0, 0, {0}, ∅⟩

def c1env : CycleEnv := ⟨[], 0, 1, true, true, [], ⟨0, 0⟩, ⟨0, 1⟩⟩

def c1end : CycleEnd :=
  match quorum_cycle c1env c1st with
  | CycleResult.finished d => d
  | _ => default

/-- Witness for C1: a RUN node with score 0 against a required score of 1
finishes the cycle writing state NONE with its own bit cleared. -/
theorem c1_score_gate_no_run_or_master_witness :
    c1end.written.ws_state = disk_node_state_t.S_NONE ∧
    is_bit_set c1end.written.ws_mask 0 = false :=
  c1_score_gate_no_run_or_master c1env c1st (by decide) (by decide) c1end rfl

/-! ## C8 -/

/-- The ack count of `check_votes` reaches the running count exactly when
the starting counts agree and every tracked-running record acked us. -/
theorem cv_scan_all_acks (my : Nat) (l : List node_info_t) :
    ∀ (r a n lo : Nat) (msg : disk_msg_t), a ≤ r →
    ((cv_scan my l r a n lo msg).2.1 = (cv_scan my l r a n lo msg).1 ↔
      (a = r ∧ ∀ ni ∈ l, state_run ni.ni_state = true →
        ni.ni_status.ps_msg = M_ACK ∧ ni.ni_status.ps_arg = my)) := by
  induction l with
  | nil =>
    intro r a n lo msg hle
    simp [cv_scan]
  | cons ni rest ih =>
    intro r a n lo msg hle
    by_cases hrun : state_run ni.ni_state = false
    · simp only [cv_scan, if_pos hrun]
      rw [ih r a n lo msg hle]
      constructor
      · rintro ⟨h1, h2⟩
        refine ⟨h1, ?_⟩
        intro y hy hys
        rcases List.mem_cons.mp hy with rfl | hy'
        · rw [hys] at hrun; cases hrun
        · exact h2 y hy' hys
      · rintro ⟨h1, h2⟩
        exact ⟨h1, fun y hy hys => h2 y (List.mem_cons_of_mem _ hy) hys⟩
    · have hrun' : state_run ni.ni_state = true := by simpa using hrun
      simp only [cv_scan, if_neg hrun]
      by_cases hack : ni.ni_status.ps_msg = M_ACK ∧ ni.ni_status.ps_arg = my
      · rw [if_pos hack]
        split
        all_goals {
          rw [ih (r + 1) (a + 1) _ _ _ (by omega)]
          constructor
          · rintro ⟨h1, h2⟩
            refine ⟨by omega, ?_⟩
            intro y hy hys
            rcases List.mem_cons.mp hy with rfl | hy'
            · exact hack
            · exact h2 y hy' hys
          · rintro ⟨h1, h2⟩
            exact ⟨by omega, fun y hy hys =>
              h2 y (List.mem_cons_of_mem _ hy) hys⟩
        }
      · rw [if_neg hack]
        split
        all_goals {
          rw [ih (r + 1) a _ _ _ (by omega)]
          constructor
          · rintro ⟨h1, _⟩
            exact absurd h1 (by omega)
          · rintro ⟨_, h2⟩
            exact absurd (h2 ni (List.mem_cons_self _ _) hrun') hack
        }

open disk_node_state_t in
/-- C8: `check_votes` returns the all-acks outcome 3 exactly when every
peer in the tracked-alive set published `ACK` with our id as argument;
and, in a cycle in which the node was not already MASTER, the decision
chain promotes it to MASTER only when there is no master, a bid is
pending, `check_votes` returned 3, and the bid has been pending for at
least `master_wait` intervals. -/
theorem c8_all_acks_and_master_wait :
    (∀ (ctx : qd_ctx) (nis : List node_info_t) (msg : disk_msg_t),
      ((check_votes ctx nis msg).1 = 3 ↔
        ∀ ni ∈ nis, state_run ni.ni_state = true →
          ni.ni_status.ps_msg = M_ACK ∧ ni.ni_status.ps_arg = ctx.qc_my_id)) ∧
    (∀ (env : CycleEnv) (m m2 : MidState),
      m.mid_ctx.qc_status ≠ S_MASTER → cycle_decide env m = some m2 →
      m2.mid_ctx.qc_status = S_MASTER →
      m.mid_ctx.qc_master = 0 ∧ m.mid_bid ≠ 0 ∧
      (check_votes m.mid_ctx m.mid_ni m.mid_msg).1 = 3 ∧
      m.mid_ctx.qc_master_wait ≤ m.mid_bid + 1) := by
  constructor
  · intro ctx nis msg
    have h3 : (check_votes ctx nis msg).1 = 3 ↔
        (cv_scan ctx.qc_my_id nis 0 0 0 ctx.qc_my_id msg).2.1 =
        (cv_scan ctx.qc_my_id nis 0 0 0 ctx.qc_my_id msg).1 := by
      unfold check_votes
      dsimp only
      split_ifs <;> simp_all
    rw [h3, cv_scan_all_acks ctx.qc_my_id nis 0 0 0 ctx.qc_my_id msg (le_refl 0)]
    simp
  · intro env m m2 hM h hM2
    unfold cycle_decide at h
    dsimp only at h
    split_ifs at h <;>
      first
        | exact Option.noConfusion h
        | (injection h with h2; subst h2; exact absurd hM2 hM)
        | (injection h with h2; subst h2;
           refine ⟨?_, ?_, ?_, ?_⟩ <;> first | tauto | omega)

def c8ctx : qd_ctx :=
  ⟨1, disk_node_state_t.S_RUN, 0, 1, 10, 2, 2, 5, 0, true, false, false, true, true⟩

def c8ni : node_info_t :=
  ⟨⟨2, disk_node_state_t.S_RUN, 2, 30, 5, M_ACK, 1, 3, ∅⟩, 5, 0, 30, 0, 4,
   ⟨M_ACK, 1, 3⟩, ⟨0, 0, 0⟩, disk_node_state_t.S_RUN⟩

/-- Witness for C8: with one tracked-running peer that acked node 1,
`check_votes` returns 3. -/
theorem c8_all_acks_and_master_wait_witness :
    (check_votes c8ctx [c8ni] ⟨M_BID, 0, 7⟩).1 = 3 :=
  (c8_all_acks_and_master_wait.1 c8ctx [c8ni] ⟨M_BID, 0, 7⟩).mpr (by decide)

/-! ## C9 -/

open disk_node_state_t in
/-- C9: when the local state is MASTER but a master with another id was
detected, the node abdicates: its state becomes RUN, the upgrade wait is
restarted to `upgrade_wait`, the pending bid is cleared — and the only
reboot such a cycle can take is the independent paranoid cycle-overrun
one (the source's reboot on this conflict is commented out); if the
cycle finishes, the block it writes carries state RUN. -/
theorem c9_conflict_abdicates (env : CycleEnv) (st : LoopState) (m : MidState)
    (hpre : cycle_pre env st = MidResult.mid m)
    (hM : m.mid_ctx.qc_status = S_MASTER)
    (hc : 1 ≤ m.mid_count)
    (hne : m.mid_ctx.qc_master ≠ m.mid_ctx.qc_my_id) :
    (resolve_conflict m).mid_ctx.qc_status = S_RUN ∧
    (resolve_conflict m).mid_upgrade = m.mid_ctx.qc_upgrade_wait ∧
    (resolve_conflict m).mid_bid = 0 ∧
    (∀ r, quorum_cycle env st = CycleResult.reboot r → r = RebootReason.paranoid) ∧
    (∀ d, quorum_cycle env st = CycleResult.finished d →
      d.written.ws_state = S_RUN) := by
  have hres : resolve_conflict m =
      { m with mid_ctx := { m.mid_ctx with qc_status := S_RUN },
               mid_upgrade := m.mid_ctx.qc_upgrade_wait,
               mid_bid := 0,
               mid_msg := { m.mid_msg with m_msg := M_NONE, m_seq := m.mid_msg.m_seq + 1 } } := by
    unfold resolve_conflict
    rw [if_pos ⟨hc, hM, hne⟩]
  refine ⟨by rw [hres], by rw [hres], by rw [hres], ?_, ?_⟩
  · intro r hr
    rw [quorum_cycle_eq_mid env st m hpre] at hr
    rcases hdec : cycle_decide env (resolve_conflict m) with _ | m2
    · rw [quorum_cycle_rest_none env _ hdec] at hr
      exact CycleResult.noConfusion hr
    · rw [quorum_cycle_rest_some env _ m2 hdec] at hr
      exact cycle_finish_reboot env m2 r hr
  · intro d hd
    rw [quorum_cycle_eq_mid env st m hpre] at hd
    rcases hdec : cycle_decide env (resolve_conflict m) with _ | m2
    · rw [quorum_cycle_rest_none env _ hdec] at hd
      exact CycleResult.noConfusion hd
    · rw [quorum_cycle_rest_some env _ m2 hdec] at hd
      obtain ⟨hw1, _, _⟩ := cycle_finish_finished env m2 d hd
      have hb0 : (resolve_conflict m).mid_bid = 0 := by rw [hres]
      have hsr : (resolve_conflict m).mid_ctx.qc_status = S_RUN := by rw [hres]
      have hkeep := cycle_decide_status_bid0 env _ m2 hb0 hdec
      rw [hw1, hkeep, hsr]

def c9ni : node_info_t :=
  ⟨⟨1, disk_node_state_t.S_MASTER, 1, 10, 3, 0, 0, 0, ∅⟩, 3, 0, 10, 0, 0,
   ⟨0, 0, 0⟩, ⟨0, 0, 0⟩, disk_node_state_t.S_RUN⟩

def c9st : LoopState :=
  ⟨⟨2, disk_node_state_t.S_MASTER, 0, 1, 10, 2, 2, 5, 1, false, false, false, true, true⟩,
   [c9ni], ⟨0, 0, 0⟩, 0, 0, ∅, ∅⟩

def c9env : CycleEnv := ⟨[none], 1, 1, true, true, [], ⟨0, 0⟩, ⟨0, 1⟩⟩

def c9m : MidState :=
  match cycle_pre c9env c9st with
  | MidResult.mid m => m
  | _ => default

def c9end : CycleEnd :=
  match quorum_cycle c9env c9st with
  | CycleResult.finished d => d
  | _ => default

/-- Witness for C9: node 2, believing itself MASTER, detects node 1 as
master; it abdicates to RUN with its bid cleared, and the written block
carries state RUN. -/
theorem c9_conflict_abdicates_witness :
    (resolve_conflict c9m).mid_ctx.qc_status = disk_node_state_t.S_RUN ∧
    (resolve_conflict c9m).mid_bid = 0 ∧
    c9end.written.ws_state = disk_node_state_t.S_RUN := by
  have h := c9_conflict_abdicates c9env c9st c9m rfl (by decide) (by decide) (by decide)
  exact ⟨h.1, h.2.2.1, h.2.2.2.2 c9end rfl⟩

/-! ## C3 -/

/-- `_diff_tv` computes the elapsed time exactly. -/
theorem toUsec_diff_tv (s e : timeval) :
    toUsec (_diff_tv s e) = toUsec e - toUsec s := by
  unfold _diff_tv toUsec
  split <;> dsimp only <;> ring

/-- For normalised timevals, `_cmp_tv` returns 1 exactly on strictly
smaller left arguments. -/
theorem cmp_tv_one_iff (l r : timeval) (hl : tv_wf l) (hr : tv_wf r) :
    (_cmp_tv l r = 1 ↔ toUsec l < toUsec r) := by
  obtain ⟨hl1, hl2⟩ := hl
  obtain ⟨hr1, hr2⟩ := hr
  unfold _cmp_tv toUsec
  split_ifs <;> constructor <;> intro h <;>
    first
      | rfl
      | omega
      | exact absurd h (by decide)

/-- Semantics of the sleep computation: the remainder of the interval
when the cycle was shorter; a full interval otherwise. -/
theorem compute_sleeptime_semantic (diff : timeval) (n : Nat) (hwf : tv_wf diff) :
    toUsec (compute_sleeptime diff ⟨(n : Nat), 0⟩) =
      (if toUsec diff < (n : Int) * 1000000
       then (n : Int) * 1000000 - toUsec diff
       else (n : Int) * 1000000) := by
  have hwfn : tv_wf ⟨(n : Nat), 0⟩ := by
    constructor <;> simp
  have hto : toUsec ⟨(n : Nat), 0⟩ = (n : Int) * 1000000 := by
    simp [toUsec]
  unfold compute_sleeptime
  by_cases hc : _cmp_tv diff ⟨(n : Nat), 0⟩ = 1
  · rw [if_pos hc, toUsec_diff_tv, hto, if_pos]
    exact hto ▸ (cmp_tv_one_iff diff _ hwf hwfn).mp hc
  · rw [if_neg hc, hto, if_neg]
    intro hlt
    exact hc ((cmp_tv_one_iff diff _ hwf hwfn).mpr (hto ▸ hlt))

open disk_node_state_t in
/-- C3 (amended): a cycle that completes sleeps for `interval − Δ` when
`Δ < interval`, but for a full `interval` — not 0 — when `Δ ≥ interval`
(the source copies the whole interval into `sleeptime` in that case). -/
theorem c3_sleep_remainder_or_full_interval (env : CycleEnv) (st : LoopState)
    (d : CycleEnd) (hd : quorum_cycle env st = CycleResult.finished d)
    (hwf : tv_wf (_diff_tv env.oldtime env.newtime)) :
    toUsec d.sleeptime =
      (if toUsec (_diff_tv env.oldtime env.newtime) <
          (st.ctx.qc_interval : Int) * 1000000
       then (st.ctx.qc_interval : Int) * 1000000 -
          toUsec (_diff_tv env.oldtime env.newtime)
       else (st.ctx.qc_interval : Int) * 1000000) := by
  rcases hpre : cycle_pre env st with r | m
  · rw [quorum_cycle_eq_reboot env st r hpre] at hd
    exact CycleResult.noConfusion hd
  · rw [quorum_cycle_eq_mid env st m hpre] at hd
    rcases hdec : cycle_decide env (resolve_conflict m) with _ | m2
    · rw [quorum_cycle_rest_none env _ hdec] at hd
      exact CycleResult.noConfusion hd
    · rw [quorum_cycle_rest_some env _ m2 hdec] at hd
      obtain ⟨_, _, hsleep⟩ := cycle_finish_finished env m2 d hd
      have hint : m2.mid_ctx.qc_interval = st.ctx.qc_interval := by
        rw [(cycle_decide_config env _ m2 hdec).2.1,
            (resolve_conflict_config m).2.1,
            (cycle_pre_config env st m hpre).2.1]
      rw [hsleep, hint, compute_sleeptime_semantic _ _ hwf]

def c3st : LoopState :=
  ⟨⟨1, disk_node_state_t.S_RUN, 0, 1, 10, 2, 2, 5, 0, false, false, false, true, true⟩,
   [], ⟨0, 0, 0⟩, 0, 0, ∅, ∅⟩

def c3env : CycleEnv := ⟨[], 1, 1, true, true, [], ⟨0, 0⟩, ⟨1, 0⟩⟩

/-- Counterexample for C3 as stated: a cycle of measured length exactly
one interval (Δ = interval = 1 s) completes without reboot and sleeps a
full second, while the claim's `max(0, interval − Δ)` is 0. -/
theorem c3_counterexample :
    cycleSleep (quorum_cycle c3env c3st) = some ⟨1, 0⟩ ∧
    _diff_tv c3env.oldtime c3env.newtime = ⟨1, 0⟩ ∧
    sleep_per_spec ⟨1, 0⟩ ⟨1, 0⟩ = ⟨0, 0⟩ ∧
    ((⟨1, 0⟩ : timeval) ≠ ⟨0, 0⟩) := by decide

def c3end : CycleEnd :=
  match quorum_cycle c3env c3st with
  | CycleResult.finished d => d
  | _ => default

/-- Witness for C3 (amended): the same cycle's sleep time evaluates to a
full interval of 1000000 microseconds. -/
theorem c3_sleep_remainder_or_full_interval_witness :
    toUsec c3end.sleeptime = 1000000 := by
  have h := c3_sleep_remainder_or_full_interval c3env c3st c3end rfl (by decide)
  rw [h]
  decide

def c10ctx : qd_ctx :=
  ⟨3, disk_node_state_t.S_MASTER, 3, 2, 7, 2, 2, 4, 0, true, true, false, true, true⟩

def c10ni : node_info_t :=
  ⟨⟨1, disk_node_state_t.S_MASTER, 1, 77, 12, M_BID, 0, 9, {0, 1}⟩, 12, 0, 77, 2, 6,
   ⟨M_BID, 0, 9⟩, ⟨M_NONE, 0, 8⟩, disk_node_state_t.S_MASTER⟩

/-- Witness for C10: a one-slot pass whose only read fails returns the
record array unchanged. -/
theorem c10_failed_read_frame_witness :
    (read_node_blocks c10ctx [none] [c10ni]).1[0]? = [c10ni][0]? :=
  c10_failed_read_frame c10ctx [none] [c10ni] 0 (by decide)
